import Mathlib

/-!
# Offline operation queue: a shallow embedding

This file embeds the offline-queue core of the BrandGrip CRM front-end:

* the IndexedDB persistence layer (`src/lib/offline-queue.ts`): the pending
  operation log (`addToQueue`, `removeFromQueue`, `getQueuedOperations`,
  `getQueueCount`) and the read-through lead cache (`cacheLeads`,
  `getCachedLeads`, `updateCachedLead`, `deleteCachedLead`);
* the queue-manager hook (`src/hooks/use-offline-queue.tsx`):
  `syncQueue`, `processOperation`, `updateQueueCount`, `queueInsert`,
  `queueUpdate`, `queueDelete`.

Modelling conventions.  Both IndexedDB object stores use `keyPath: 'id'`, so a
store is a list of records with (by construction) pairwise distinct `id`
fields; `getAll` returns records in ascending key order, which we model with an
explicit sort by `id`.  A JS record (`any`) is modelled by `LeadData`: its
optional `id` property plus one field abstracting all remaining columns.
Nondeterministic inputs of an enqueue call (`crypto.randomUUID()`,
`Date.now()`, and whether the durable append faults) are threaded explicitly
through an `EnqEnv` environment.  The remote service (supabase) is an oracle
`Nat → Bool` deciding the outcome of the n-th dispatched call; each app-level
function returns, besides the successor state, the list of remote calls it
dispatched and the toasts it raised.  The source `syncQueue` returns
`Promise<void>` (no value); the `result` component of `SyncOut` is
instrumentation exposing the internal `successCount` / `failCount` variables,
which reach the user only through the `Sync Complete` toast.
-/

namespace OfflineQueue

open scoped List

/-- The `type` field of a queued operation: `'insert' | 'update' | 'delete'`. -/
inductive OpType
  | insert
  | update
  | delete
deriving DecidableEq

/-- A JS record: the optional `id` property and an abstraction of all the
remaining columns (`client_name`, ...), which the queue code never inspects. -/
structure LeadData where
  id : Option String
  fields : String
deriving DecidableEq

/-- `QueuedOperation` from `src/lib/offline-queue.ts`: log key `id`
(a uuid), operation `type`, target `table`, record payload `data`, and the
`Date.now()` `timestamp` taken at enqueue time. -/
structure QueuedOperation where
  id : String
  type : OpType
  table : String
  data : LeadData
  timestamp : Nat
deriving DecidableEq

/-- Storage-level failures: a platform fault, or an IndexedDB `add` on an
already-present key (ConstraintError, which aborts the transaction). -/
inductive StoreError
  | storage
  | constraint
deriving DecidableEq

/-- The environment of one enqueue call: the uuid produced by
`crypto.randomUUID()`, the `Date.now()` timestamp, and whether the durable
append (`store.add` inside `addToQueue`) faults on this call. -/
structure EnqEnv where
  uuid : String
  ts : Nat
  appendFail : Bool
deriving DecidableEq

/-- `addToQueue`: build the `QueuedOperation` from the fresh uuid and current
timestamp, then `store.add` it to the log.  `add` rejects when storage faults
or when the key already exists; on rejection the log is unchanged. -/
def addToQueue (env : EnqEnv) (q : List QueuedOperation) (type : OpType) (table : String)
    (data : LeadData) : Except StoreError (List QueuedOperation × String) :=
  if env.appendFail then .error .storage
  else if q.any (fun op => decide (op.id = env.uuid)) then .error .constraint
  else .ok (q ++ [⟨env.uuid, type, table, data, env.ts⟩], env.uuid)

/-- `removeFromQueue`: `store.delete(id)` on the operation log. -/
def removeFromQueue (id : String) (q : List QueuedOperation) : List QueuedOperation :=
  q.filter (fun op => !decide (op.id = id))

/-- `getQueuedOperations`: `store.getAll()` (ascending key order) followed by
the source's stable `sort((a, b) => a.timestamp - b.timestamp)`. -/
def getQueuedOperations (q : List QueuedOperation) : List QueuedOperation :=
  List.insertionSort (fun a b => a.timestamp ≤ b.timestamp)
    (List.insertionSort (fun a b => a.id ≤ b.id) q)

/-- `getQueueCount`: `store.count()` on the operation log. -/
def getQueueCount (q : List QueuedOperation) : Nat :=
  q.length

/-- `updateCachedLead`: `store.put(lead)` on the lead cache — overwrite the
record with the same key if present, otherwise add the record. -/
def updateCachedLead (cache : List LeadData) (lead : LeadData) : List LeadData :=
  if cache.any (fun l => decide (l.id = lead.id)) then
    cache.map (fun l => if l.id = lead.id then lead else l)
  else cache ++ [lead]

/-- `deleteCachedLead`: `store.delete(id)` on the lead cache. -/
def deleteCachedLead (cache : List LeadData) (delId : String) : List LeadData :=
  cache.filter (fun l => !decide (l.id = some delId))

/-- `getCachedLeads`: `store.getAll()` on the lead cache, in ascending key
order (the spec imposes no ordering on `readAll`). -/
def getCachedLeads (cache : List LeadData) : List LeadData :=
  List.insertionSort (fun a b => a.id.getD "" ≤ b.id.getD "") cache

/-- The sequence of `store.add(lead)` requests issued by `cacheLeads` inside
its transaction: each `add` rejects when its key is already present. -/
def addAllLeads (cache : List LeadData) : List LeadData → Except StoreError (List LeadData)
  | [] => .ok cache
  | l :: rest =>
    if cache.any (fun x => decide (x.id = l.id)) then .error .constraint
    else addAllLeads (cache ++ [l]) rest

/-- `cacheLeads`: one readwrite transaction that clears the lead cache and
`add`s every lead.  An unhandled `add` rejection aborts the transaction,
rolling back the clear and the previous adds, and the returned promise
rejects; on completion the cache is exactly the supplied list.  The result is
the cache contents after the call, paired with the rejection if any. -/
def cacheLeads (leads : List LeadData) (cache : List LeadData) :
    List LeadData × Option StoreError :=
  match addAllLeads [] leads with
  | .ok c => (c, none)
  | .error e => (cache, some e)

/-- The component state of `useOfflineQueue`: the two persisted collections
plus the two React state cells `queueCount` and `isSyncing`. -/
structure AppState where
  queue : List QueuedOperation
  cache : List LeadData
  queueCount : Nat
  isSyncing : Bool
deriving DecidableEq

/-- The state after `initDB().then(updateQueueCount)` on a fresh database. -/
def initState : AppState :=
  ⟨[], [], 0, false⟩

/-- Toasts raised by the hook (observable UI output). -/
inductive Toast
  | savedOffline
  | deletedOffline
  | syncComplete (succeeded failed : Nat)
deriving DecidableEq

/-- One call dispatched to the remote service (supabase), as built by
`processOperation`: for an insert the payload minus its `id` property, for an
update the target id and the remaining payload, for a delete the id only. -/
inductive RemoteCall
  | insertCall (fields : String)
  | updateCall (id : Option String) (fields : String)
  | deleteCall (id : Option String)
deriving DecidableEq

/-- The remote call that `processOperation` dispatches for an operation: the
destructuring `const { id, ...rest } = op.data` strips the `id` property. -/
def remoteCallOf (op : QueuedOperation) : RemoteCall :=
  match op.type with
  | .insert => .insertCall op.data.fields
  | .update => .updateCall op.data.id op.data.fields
  | .delete => .deleteCall op.data.id

/-- `processOperation`: throws `Unsupported table` before any remote contact
when `op.table ≠ 'leads'`; otherwise dispatches the call for `op` and throws
iff the remote rejects.  Result: the call dispatched (if any) and whether the
operation succeeded. -/
def processOperation (remoteOk : Bool) (op : QueuedOperation) : Option RemoteCall × Bool :=
  if op.table = "leads" then (some (remoteCallOf op), remoteOk) else (none, false)

/-- `updateQueueCount`: re-read `getQueueCount` from the store into the
`queueCount` state cell. -/
def updateQueueCount (s : AppState) : AppState :=
  { s with queueCount := getQueueCount s.queue }

/-- The accumulator of `syncQueue`'s `for (const op of operations)` loop:
remaining log contents, calls dispatched so far, and the `successCount` /
`failCount` counters. -/
structure LoopOut where
  queue : List QueuedOperation
  calls : List RemoteCall
  succeeded : Nat
  failed : Nat
deriving DecidableEq

/-- The body of `syncQueue`'s loop: for each operation in order, run
`processOperation`; on success `removeFromQueue` it and bump `successCount`,
on any throw leave it logged and bump `failCount`, then move to the next
operation.  The oracle is consulted at the index of the next dispatched
call. -/
def syncLoop (remoteOk : Nat → Bool) (ops : List QueuedOperation) (q : List QueuedOperation)
    (calls : List RemoteCall) (succeeded failed : Nat) : LoopOut :=
  match ops with
  | [] => ⟨q, calls, succeeded, failed⟩
  | op :: rest =>
    match processOperation (remoteOk calls.length) op with
    | (none, _) => syncLoop remoteOk rest q calls succeeded (failed + 1)
    | (some c, true) =>
        syncLoop remoteOk rest (removeFromQueue op.id q) (calls ++ [c]) (succeeded + 1) failed
    | (some c, false) => syncLoop remoteOk rest q (calls ++ [c]) succeeded (failed + 1)

/-- Everything observable about one `syncQueue` invocation: the successor
state, the remote calls dispatched, the toasts raised, and (instrumentation)
the final internal counters — `none` when the re-entrancy guard fired and the
loop never ran.  The source function itself resolves with `undefined` on every
path. -/
structure SyncOut where
  state : AppState
  calls : List RemoteCall
  toasts : List Toast
  result : Option (Nat × Nat)
deriving DecidableEq

/-- `syncQueue`: re-entrancy guard (`if (isSyncing) return`), then read all
queued operations in timestamp order, run the loop, recompute the queue count
from the store, raise the `Sync Complete` toast when `successCount > 0`, and
clear `isSyncing`. -/
def syncQueue (remoteOk : Nat → Bool) (s : AppState) : SyncOut :=
  if s.isSyncing then ⟨s, [], [], none⟩
  else
    let ops := getQueuedOperations s.queue
    let r := syncLoop remoteOk ops s.queue [] 0 0
    ⟨updateQueueCount { s with queue := r.queue, isSyncing := false },
      r.calls,
      if 0 < r.succeeded then [Toast.syncComplete r.succeeded r.failed] else [],
      some (r.succeeded, r.failed)⟩

/-- Everything observable about one enqueue call: the successor state, the
temp id returned (`queueInsert` only), the toasts raised, the remote calls
dispatched (always none — enqueueing never contacts the remote service), and
the error the call rejected with, if any. -/
structure EnqOut where
  state : AppState
  tempId : Option String
  toasts : List Toast
  calls : List RemoteCall
  err : Option StoreError
deriving DecidableEq

/-- `queueInsert`: generate `temp_<uuid>`, attach it to a copy of the payload,
durably append the operation — carrying the original payload — to the log,
`put` the id-carrying copy into the lead cache, recompute the queue count and
return the temp id.  If the append rejects, the call rethrows at once: no
cache write, no count update, no toast. -/
def queueInsert (env : EnqEnv) (s : AppState) (table : String) (data : LeadData) : EnqOut :=
  let tempId := "temp_" ++ env.uuid
  let dataWithId := { data with id := some tempId }
  match addToQueue env s.queue .insert table data with
  | .error e => ⟨s, none, [], [], some e⟩
  | .ok (q, _) =>
    ⟨updateQueueCount { s with queue := q, cache := updateCachedLead s.cache dataWithId },
      some tempId, [Toast.savedOffline], [], none⟩

/-- `queueUpdate`: durably append the update, then `put` the payload into the
lead cache and recompute the queue count.  If the append rejects, the call
rethrows at once: no cache write, no count update, no toast. -/
def queueUpdate (env : EnqEnv) (s : AppState) (table : String) (data : LeadData) : EnqOut :=
  match addToQueue env s.queue .update table data with
  | .error e => ⟨s, none, [], [], some e⟩
  | .ok (q, _) =>
    ⟨updateQueueCount { s with queue := q, cache := updateCachedLead s.cache data },
      none, [Toast.savedOffline], [], none⟩

/-- `queueDelete`: durably append the delete (payload `{ id }`), then remove
the entity from the lead cache and recompute the queue count.  If the append
rejects, the call rethrows at once: no cache write, no count update, no
toast. -/
def queueDelete (env : EnqEnv) (s : AppState) (table : String) (delId : String) : EnqOut :=
  match addToQueue env s.queue .delete table ⟨some delId, ""⟩ with
  | .error e => ⟨s, none, [], [], some e⟩
  | .ok (q, _) =>
    ⟨updateQueueCount { s with queue := q, cache := deleteCachedLead s.cache delId },
      none, [Toast.deletedOffline], [], none⟩

/-- An enqueue request: which of the three enqueue entry points is called,
with its arguments. -/
inductive EnqCmd
  | ins (table : String) (data : LeadData)
  | upd (table : String) (data : LeadData)
  | del (table : String) (delId : String)
deriving DecidableEq

/-- The target table of an enqueue request. -/
def cmdTable : EnqCmd → String
  | .ins t _ => t
  | .upd t _ => t
  | .del t _ => t

/-- Dispatch an enqueue request to the corresponding hook function. -/
def runEnq (env : EnqEnv) (c : EnqCmd) (s : AppState) : EnqOut :=
  match c with
  | .ins t d => queueInsert env s t d
  | .upd t d => queueUpdate env s t d
  | .del t i => queueDelete env s t i

/-- Run a sequence of enqueue requests, each with its own environment. -/
def runEnqs : List (EnqEnv × EnqCmd) → AppState → AppState
  | [], s => s
  | p :: rest, s => runEnqs rest (runEnq p.1 p.2 s).state

/-- The log entry that a successful enqueue request appends. -/
def opOf (p : EnqEnv × EnqCmd) : QueuedOperation :=
  match p.2 with
  | .ins t d => ⟨p.1.uuid, .insert, t, d, p.1.ts⟩
  | .upd t d => ⟨p.1.uuid, .update, t, d, p.1.ts⟩
  | .del t i => ⟨p.1.uuid, .delete, t, ⟨some i, ""⟩, p.1.ts⟩

/-- A concrete enqueue sequence — insert, update, delete — with fresh uuids
and increasing timestamps. -/
def threeEnqueues : List (EnqEnv × EnqCmd) :=
  [(⟨"u1", 1, false⟩, EnqCmd.ins "leads" ⟨none, "Acme"⟩),
    (⟨"u2", 2, false⟩, EnqCmd.upd "leads" ⟨some "7", "Duo"⟩),
    (⟨"u3", 3, false⟩, EnqCmd.del "leads" "7")]

instance : IsTotal QueuedOperation (fun a b => a.timestamp ≤ b.timestamp) :=
  ⟨fun a b => Nat.le_total a.timestamp b.timestamp⟩

instance : IsTrans QueuedOperation (fun a b => a.timestamp ≤ b.timestamp) :=
  ⟨fun _ _ _ h₁ h₂ => Nat.le_trans h₁ h₂⟩

instance : IsAntisymm QueuedOperation (fun a b => a.timestamp < b.timestamp) :=
  ⟨fun _ _ h₁ h₂ => absurd (Nat.lt_trans h₁ h₂) (Nat.lt_irrefl _)⟩

/-! ## Helper lemmas -/

theorem getQueuedOperations_perm (q : List QueuedOperation) : getQueuedOperations q ~ q :=
  (List.perm_insertionSort _ _).trans (List.perm_insertionSort _ _)

theorem getQueuedOperations_sorted (q : List QueuedOperation) :
    (getQueuedOperations q).Pairwise (fun a b => a.timestamp ≤ b.timestamp) :=
  List.sorted_insertionSort _ _

theorem getQueuedOperations_pairwise_lt (q : List QueuedOperation)
    (hnd : (q.map (fun op => op.timestamp)).Nodup) :
    (getQueuedOperations q).Pairwise (fun a b => a.timestamp < b.timestamp) := by
  have hperm : (getQueuedOperations q).map (fun op => op.timestamp) ~
      q.map (fun op => op.timestamp) := (getQueuedOperations_perm q).map _
  have hnd' : ((getQueuedOperations q).map (fun op => op.timestamp)).Nodup :=
    hperm.nodup_iff.mpr hnd
  have hne : (getQueuedOperations q).Pairwise (fun a b => a.timestamp ≠ b.timestamp) :=
    List.pairwise_map.mp hnd'
  exact ((getQueuedOperations_sorted q).and hne).imp
    (fun h => Nat.lt_of_le_of_ne h.1 h.2)

theorem getQueuedOperations_eq_self (q : List QueuedOperation)
    (h : q.Pairwise (fun a b => a.timestamp < b.timestamp)) :
    getQueuedOperations q = q := by
  have hnd : (q.map (fun op => op.timestamp)).Nodup :=
    List.pairwise_map.mpr (h.imp fun hlt => Nat.ne_of_lt hlt)
  exact List.eq_of_perm_of_sorted (getQueuedOperations_perm q)
    (getQueuedOperations_pairwise_lt q hnd) h

theorem getCachedLeads_perm (cache : List LeadData) : getCachedLeads cache ~ cache :=
  List.perm_insertionSort _ _

theorem mem_updateCachedLead (cache : List LeadData) (lead : LeadData) :
    lead ∈ updateCachedLead cache lead := by
  unfold updateCachedLead
  by_cases h : cache.any (fun l => decide (l.id = lead.id)) = true
  · rw [if_pos h]
    rcases List.any_eq_true.mp h with ⟨x, hx, hid⟩
    have hid' : x.id = lead.id := of_decide_eq_true hid
    exact List.mem_map.mpr ⟨x, hx, by rw [if_pos hid']⟩
  · rw [if_neg h]
    exact List.mem_append_right _ (List.mem_singleton.mpr rfl)

theorem syncLoop_calls (remoteOk : Nat → Bool) (ops : List QueuedOperation) :
    ∀ (q : List QueuedOperation) (calls : List RemoteCall) (succeeded failed : Nat),
    (∀ op ∈ ops, op.table = "leads") →
    (syncLoop remoteOk ops q calls succeeded failed).calls = calls ++ ops.map remoteCallOf := by
  induction ops with
  | nil =>
    intro q calls s f _
    simp [syncLoop]
  | cons op rest ih =>
    intro q calls s f h
    have htab : op.table = "leads" := h op (List.mem_cons_self op rest)
    have hrest : ∀ o ∈ rest, o.table = "leads" := fun o ho => h o (List.mem_cons_of_mem _ ho)
    cases hok : remoteOk calls.length with
    | true => simp [syncLoop, processOperation, htab, hok, ih _ _ _ _ hrest]
    | false => simp [syncLoop, processOperation, htab, hok, ih _ _ _ _ hrest]

theorem syncLoop_allOk (remoteOk : Nat → Bool) (hok : ∀ i, remoteOk i = true)
    (ops : List QueuedOperation) :
    ∀ (q : List QueuedOperation) (calls : List RemoteCall) (succeeded failed : Nat),
    (∀ op ∈ ops, op.table = "leads") →
    syncLoop remoteOk ops q calls succeeded failed =
      ⟨q.filter (fun x => ops.all (fun o => !decide (x.id = o.id))),
        calls ++ ops.map remoteCallOf, succeeded + ops.length, failed⟩ := by
  induction ops with
  | nil =>
    intro q calls s f _
    simp [syncLoop]
  | cons op rest ih =>
    intro q calls s f h
    have htab : op.table = "leads" := h op (List.mem_cons_self op rest)
    have hrest : ∀ o ∈ rest, o.table = "leads" := fun o ho => h o (List.mem_cons_of_mem _ ho)
    have hq : (removeFromQueue op.id q).filter
        (fun x => rest.all (fun o => !decide (x.id = o.id))) =
        q.filter (fun x => (op :: rest).all (fun o => !decide (x.id = o.id))) := by
      show (q.filter (fun x => !decide (x.id = op.id))).filter
          (fun x => rest.all (fun o => !decide (x.id = o.id))) = _
      rw [List.filter_filter]
      refine List.filter_congr fun x _ => ?_
      simp [Bool.and_comm]
    simp only [syncLoop, processOperation, htab, if_pos rfl, hok calls.length,
      ih _ _ _ _ hrest, hq]
    simp [Nat.add_assoc, Nat.add_comm 1 rest.length]

theorem opOf_id (p : EnqEnv × EnqCmd) : (opOf p).id = p.1.uuid := by
  obtain ⟨e, c⟩ := p
  cases c <;> rfl

theorem opOf_table (p : EnqEnv × EnqCmd) : (opOf p).table = cmdTable p.2 := by
  obtain ⟨e, c⟩ := p
  cases c <;> rfl

theorem opOf_timestamp (p : EnqEnv × EnqCmd) : (opOf p).timestamp = p.1.ts := by
  obtain ⟨e, c⟩ := p
  cases c <;> rfl

theorem runEnq_ok (env : EnqEnv) (c : EnqCmd) (s : AppState)
    (hf : env.appendFail = false) (hfresh : ∀ op ∈ s.queue, op.id ≠ env.uuid) :
    (runEnq env c s).state.queue = s.queue ++ [opOf (env, c)] ∧
    (runEnq env c s).state.isSyncing = s.isSyncing ∧
    (runEnq env c s).err = none := by
  have hany : s.queue.any (fun op => decide (op.id = env.uuid)) = false := by
    rw [List.any_eq_false]
    intro op hop
    simpa using hfresh op hop
  cases c <;>
    simp [runEnq, queueInsert, queueUpdate, queueDelete, addToQueue, hf, hany,
      opOf, updateQueueCount]

theorem runEnqs_spec (cmds : List (EnqEnv × EnqCmd)) :
    ∀ s : AppState,
    (∀ p ∈ cmds, p.1.appendFail = false) →
    ((s.queue.map (fun op => op.id)) ++ cmds.map (fun p => p.1.uuid)).Nodup →
    (runEnqs cmds s).queue = s.queue ++ cmds.map opOf ∧
    (runEnqs cmds s).isSyncing = s.isSyncing := by
  induction cmds with
  | nil =>
    intro s _ _
    simp [runEnqs]
  | cons p rest ih =>
    intro s hf hnd
    have hf₁ : p.1.appendFail = false := hf p (List.mem_cons_self _ _)
    rw [List.map_cons] at hnd
    have hdisj := (List.nodup_append.mp hnd).2.2
    have hfresh : ∀ op ∈ s.queue, op.id ≠ p.1.uuid := by
      intro op hop heq
      exact hdisj (heq ▸ List.mem_map_of_mem (fun op => op.id) hop) (List.mem_cons_self _ _)
    obtain ⟨hq, hsync, -⟩ := runEnq_ok p.1 p.2 s hf₁ hfresh
    have hnd' : (((runEnq p.1 p.2 s).state.queue.map (fun op => op.id)) ++
        rest.map (fun p => p.1.uuid)).Nodup := by
      rw [hq, List.map_append, List.append_assoc]
      simpa [opOf_id] using hnd
    obtain ⟨ihq, ihsync⟩ := ih (runEnq p.1 p.2 s).state
      (fun x hx => hf x (List.mem_cons_of_mem _ hx)) hnd'
    refine ⟨?_, ?_⟩
    · rw [runEnqs, ihq, hq, List.append_assoc]
      rfl
    · rw [runEnqs, ihsync, hsync]

/-! ## Claim theorems -/

/-- Claim C8: calling `syncQueue` when the queue depth is 0 (and no sync is
in flight) performs zero remote calls, ends with the internal counters —
the source's `successCount` / `failCount`, which are all the "result" the
function computes before resolving with `undefined` — at `succeeded = 0,
failed = 0`, raises no toast, and leaves the operation log and the lead
cache unchanged. -/
theorem syncQueue_empty_noop (remoteOk : Nat → Bool) (s : AppState)
    (hq : s.queue = []) (hs : s.isSyncing = false) :
    (syncQueue remoteOk s).state.queue = [] ∧
    (syncQueue remoteOk s).state.cache = s.cache ∧
    (syncQueue remoteOk s).calls = [] ∧
    (syncQueue remoteOk s).toasts = [] ∧
    (syncQueue remoteOk s).result = some (0, 0) := by
  simp [syncQueue, hs, hq, getQueuedOperations, List.insertionSort, syncLoop,
    updateQueueCount]

/-- Claim C8 witness: draining a concrete empty-queue state. -/
theorem syncQueue_empty_noop_witness :
    (syncQueue (fun _ => true) ⟨[], [⟨some "7", "Acme"⟩], 0, false⟩).state.queue = [] ∧
    (syncQueue (fun _ => true) ⟨[], [⟨some "7", "Acme"⟩], 0, false⟩).state.cache =
      [⟨some "7", "Acme"⟩] ∧
    (syncQueue (fun _ => true) ⟨[], [⟨some "7", "Acme"⟩], 0, false⟩).calls = [] ∧
    (syncQueue (fun _ => true) ⟨[], [⟨some "7", "Acme"⟩], 0, false⟩).toasts = [] ∧
    (syncQueue (fun _ => true) ⟨[], [⟨some "7", "Acme"⟩], 0, false⟩).result = some (0, 0) :=
  syncQueue_empty_noop (fun _ => true) ⟨[], [⟨some "7", "Acme"⟩], 0, false⟩ rfl rfl

/-- Claim C5 (amended): invoking `syncQueue` while a drain is in flight
(`isSyncing = true`) is a complete no-op — it returns immediately, starts no
second pass, dispatches no remote calls, raises no toast and leaves the state
exactly as it is, so the eventual queue state is that of the single in-flight
pass alone.  It does NOT return a "sync already running" indication: the
source returns `Promise<void>` on every path (see the counterexample). -/
theorem syncQueue_reentrant_noop (remoteOk : Nat → Bool) (s : AppState)
    (h : s.isSyncing = true) :
    syncQueue remoteOk s = ⟨s, [], [], none⟩ := by
  simp [syncQueue, h]

/-- Claim C5 witness: a concrete guarded call. -/
theorem syncQueue_reentrant_noop_witness :
    syncQueue (fun _ => true)
        ⟨[⟨"u9", OpType.update, "leads", ⟨some "7", "Acme"⟩, 3⟩], [], 1, true⟩ =
      ⟨⟨[⟨"u9", OpType.update, "leads", ⟨some "7", "Acme"⟩, 3⟩], [], 1, true⟩, [], [], none⟩ :=
  syncQueue_reentrant_noop (fun _ => true)
    ⟨[⟨"u9", OpType.update, "leads", ⟨some "7", "Acme"⟩, 3⟩], [], 1, true⟩ rfl

/-- Claim C5 counterexample (the "sync already running indication" part):
the source's guard is `if (isSyncing) return;`, so the guarded call resolves
with `undefined` — exactly what every `syncQueue()` call resolves with — and
produces no caller-visible output at all: the state is untouched, no remote
call is dispatched and no toast is raised.  Its caller-visible outputs are
identical to those of draining an idle empty queue, so no "sync already
running" indication of any kind is returned. -/
theorem syncQueue_reentrant_no_indication :
    (syncQueue (fun _ => true)
        ⟨[⟨"u1", OpType.update, "leads", ⟨some "7", "Acme"⟩, 3⟩], [], 1, true⟩).state =
      ⟨[⟨"u1", OpType.update, "leads", ⟨some "7", "Acme"⟩, 3⟩], [], 1, true⟩ ∧
    (syncQueue (fun _ => true)
        ⟨[⟨"u1", OpType.update, "leads", ⟨some "7", "Acme"⟩, 3⟩], [], 1, true⟩).calls = [] ∧
    (syncQueue (fun _ => true)
        ⟨[⟨"u1", OpType.update, "leads", ⟨some "7", "Acme"⟩, 3⟩], [], 1, true⟩).toasts = [] ∧
    (syncQueue (fun _ => true) ⟨[], [], 0, false⟩).state = ⟨[], [], 0, false⟩ ∧
    (syncQueue (fun _ => true) ⟨[], [], 0, false⟩).calls = [] ∧
    (syncQueue (fun _ => true) ⟨[], [], 0, false⟩).toasts = [] := by
  refine ⟨rfl, rfl, rfl, rfl, rfl, rfl⟩

/-- Claim C7 helper: each enqueue entry point leaves `queueCount` equal to the
store's `getQueueCount` (recomputed on success, untouched together with the
store on a rejected append). -/
theorem runEnq_count (env : EnqEnv) (c : EnqCmd) (s : AppState)
    (h : s.queueCount = getQueueCount s.queue) :
    (runEnq env c s).state.queueCount = getQueueCount (runEnq env c s).state.queue := by
  cases c with
  | ins t d =>
    simp only [runEnq, queueInsert]
    cases haq : addToQueue env s.queue .insert t d with
    | error e => simpa [haq] using h
    | ok v =>
      obtain ⟨q, rid⟩ := v
      simp [haq, updateQueueCount]
  | upd t d =>
    simp only [runEnq, queueUpdate]
    cases haq : addToQueue env s.queue .update t d with
    | error e => simpa [haq] using h
    | ok v =>
      obtain ⟨q, rid⟩ := v
      simp [haq, updateQueueCount]
  | del t i =>
    simp only [runEnq, queueDelete]
    cases haq : addToQueue env s.queue .delete t ⟨some i, ""⟩ with
    | error e => simpa [haq] using h
    | ok v =>
      obtain ⟨q, rid⟩ := v
      simp [haq, updateQueueCount]

/-- Claim C7: the exposed queue depth always equals the cardinality of the
on-disk operation log — it is recomputed from the store (`getQueueCount`,
i.e. the log's length) by every enqueue entry point and after every drain
pass, and a guarded or rejected call leaves both the count and the store
untouched, so the equality is preserved by every operation of the hook. -/
theorem queueCount_tracks_store (env : EnqEnv) (c : EnqCmd) (remoteOk : Nat → Bool)
    (s : AppState) (h : s.queueCount = getQueueCount s.queue) :
    (runEnq env c s).state.queueCount = getQueueCount (runEnq env c s).state.queue ∧
    (syncQueue remoteOk s).state.queueCount =
      getQueueCount (syncQueue remoteOk s).state.queue := by
  refine ⟨runEnq_count env c s h, ?_⟩
  by_cases hs : s.isSyncing
  · simpa [syncQueue, hs] using h
  · simp [syncQueue, hs, updateQueueCount]

/-- Claim C7 witness: a concrete enqueue and a concrete drain. -/
theorem queueCount_tracks_store_witness :
    (runEnq ⟨"u1", 5, false⟩ (EnqCmd.ins "leads" ⟨none, "Acme"⟩) initState).state.queueCount =
      getQueueCount
        (runEnq ⟨"u1", 5, false⟩ (EnqCmd.ins "leads" ⟨none, "Acme"⟩) initState).state.queue ∧
    (syncQueue (fun _ => true) initState).state.queueCount =
      getQueueCount (syncQueue (fun _ => true) initState).state.queue :=
  queueCount_tracks_store ⟨"u1", 5, false⟩ (EnqCmd.ins "leads" ⟨none, "Acme"⟩)
    (fun _ => true) initState rfl

/-- Claim C10: in each of `queueInsert`, `queueUpdate` and `queueDelete` the
durable log append is awaited before the optimistic cache mutation, so when
the append rejects the call rethrows the storage error and performs no state
change at all — in particular the lead cache is untouched and no toast is
raised. -/
theorem enqueue_append_fails_atomic (env : EnqEnv) (c : EnqCmd) (s : AppState)
    (h : env.appendFail = true) :
    (runEnq env c s).state = s ∧
    (runEnq env c s).state.cache = s.cache ∧
    (runEnq env c s).err = some StoreError.storage ∧
    (runEnq env c s).toasts = [] := by
  cases c <;> simp [runEnq, queueInsert, queueUpdate, queueDelete, addToQueue, h]

/-- Claim C10 witness: a concrete failing append for each entry point. -/
theorem enqueue_append_fails_atomic_witness :
    ((runEnq ⟨"u1", 5, true⟩ (EnqCmd.ins "leads" ⟨none, "Acme"⟩) initState).state = initState ∧
      (runEnq ⟨"u1", 5, true⟩ (EnqCmd.ins "leads" ⟨none, "Acme"⟩) initState).err =
        some StoreError.storage) ∧
    ((runEnq ⟨"u2", 6, true⟩ (EnqCmd.del "leads" "7") initState).state = initState ∧
      (runEnq ⟨"u2", 6, true⟩ (EnqCmd.del "leads" "7") initState).toasts = []) := by
  refine ⟨⟨?_, ?_⟩, ⟨?_, ?_⟩⟩
  · exact (enqueue_append_fails_atomic ⟨"u1", 5, true⟩ (EnqCmd.ins "leads" ⟨none, "Acme"⟩)
      initState rfl).1
  · exact (enqueue_append_fails_atomic ⟨"u1", 5, true⟩ (EnqCmd.ins "leads" ⟨none, "Acme"⟩)
      initState rfl).2.2.1
  · exact (enqueue_append_fails_atomic ⟨"u2", 6, true⟩ (EnqCmd.del "leads" "7")
      initState rfl).1
  · exact (enqueue_append_fails_atomic ⟨"u2", 6, true⟩ (EnqCmd.del "leads" "7")
      initState rfl).2.2.2

/-- Claim C6: cache consistency.  `updateCachedLead e` followed by
`getCachedLeads` yields a result containing `e`; `deleteCachedLead id`
followed by `getCachedLeads` yields no entity with that id; and
`cacheLeads [x, y]` (for distinct ids, as two set elements have) followed by
`getCachedLeads` returns exactly the entities `x` and `y`, regardless of the
prior cache contents. -/
theorem cache_consistency (cache : List LeadData) (e : LeadData) (delId : String)
    (x y : LeadData) (hxy : x.id ≠ y.id) :
    e ∈ getCachedLeads (updateCachedLead cache e) ∧
    (∀ l ∈ getCachedLeads (deleteCachedLead cache delId), l.id ≠ some delId) ∧
    getCachedLeads (cacheLeads [x, y] cache).1 ~ [x, y] := by
  refine ⟨?_, ?_, ?_⟩
  · exact (getCachedLeads_perm _).mem_iff.mpr (mem_updateCachedLead cache e)
  · intro l hl
    have hmem : l ∈ deleteCachedLead cache delId := (getCachedLeads_perm _).mem_iff.mp hl
    have := (List.mem_filter.mp hmem).2
    simpa using this
  · have hres : cacheLeads [x, y] cache = ([x, y], none) := by
      simp [cacheLeads, addAllLeads, hxy]
    rw [hres]
    exact getCachedLeads_perm _

/-- Claim C6 witness: concrete upsert, evict and replace-all runs over a
non-trivially populated cache. -/
theorem cache_consistency_witness :
    (⟨some "1", "Acme"⟩ : LeadData) ∈
      getCachedLeads (updateCachedLead [⟨some "1", "old"⟩, ⟨some "2", "Duo"⟩] ⟨some "1", "Acme"⟩) ∧
    (∀ l ∈ getCachedLeads (deleteCachedLead [⟨some "1", "old"⟩, ⟨some "2", "Duo"⟩] "2"),
      l.id ≠ some "2") ∧
    getCachedLeads (cacheLeads [⟨some "3", "Tri"⟩, ⟨some "4", "Quad"⟩]
      [⟨some "1", "old"⟩, ⟨some "2", "Duo"⟩]).1 ~ [⟨some "3", "Tri"⟩, ⟨some "4", "Quad"⟩] :=
  cache_consistency [⟨some "1", "old"⟩, ⟨some "2", "Duo"⟩] ⟨some "1", "Acme"⟩ "2"
    ⟨some "3", "Tri"⟩ ⟨some "4", "Quad"⟩ (by decide)

/-- Claim C9 helper: within the `cacheLeads` transaction the sequence of
`add` requests succeeds precisely on key-distinct input, yielding the adds in
order. -/
theorem addAllLeads_ok (leads : List LeadData) :
    ∀ acc : List LeadData,
    (((acc ++ leads).map (fun l => l.id)).Nodup) →
    addAllLeads acc leads = .ok (acc ++ leads) := by
  induction leads with
  | nil =>
    intro acc _
    simp [addAllLeads]
  | cons l rest ih =>
    intro acc hnd
    have hnd' : (acc.map (fun l => l.id) ++
        (l.id :: rest.map (fun l => l.id))).Nodup := by
      simpa [List.map_append] using hnd
    have hdisj := (List.nodup_append.mp hnd').2.2
    have hnotin : ∀ x ∈ acc, x.id ≠ l.id := by
      intro x hx heq
      exact hdisj (heq ▸ List.mem_map_of_mem (fun l => l.id) hx) (List.mem_cons_self _ _)
    have hany : acc.any (fun x => decide (x.id = l.id)) = false := by
      rw [List.any_eq_false]
      intro x hx
      simpa using hnotin x hx
    have hstep : addAllLeads acc (l :: rest) = addAllLeads (acc ++ [l]) rest := by
      simp [addAllLeads, hany]
    rw [hstep, ih (acc ++ [l]) (by simpa [List.append_assoc] using hnd)]
    simp

/-- Claim C9 helper: a duplicate key among the `add` requests makes one of
them reject, which aborts the transaction. -/
theorem addAllLeads_err (leads : List LeadData) :
    ∀ acc : List LeadData,
    ((acc.map (fun l => l.id)).Nodup) →
    ¬ (((acc ++ leads).map (fun l => l.id)).Nodup) →
    addAllLeads acc leads = .error .constraint := by
  induction leads with
  | nil =>
    intro acc h hn
    exact absurd (by simpa using h) hn
  | cons l rest ih =>
    intro acc h hn
    by_cases hmem : acc.any (fun x => decide (x.id = l.id)) = true
    · simp [addAllLeads, hmem]
    · have hany : acc.any (fun x => decide (x.id = l.id)) = false :=
        Bool.eq_false_iff.mpr hmem
      have hnotin : l.id ∉ acc.map (fun l => l.id) := by
        intro hin
        rcases List.mem_map.mp hin with ⟨x, hx, hxid⟩
        have := List.any_eq_false.mp hany x hx
        simp [hxid] at this
      have hstep : addAllLeads acc (l :: rest) = addAllLeads (acc ++ [l]) rest := by
        simp [addAllLeads, hany]
      rw [hstep]
      refine ih (acc ++ [l]) ?_ ?_
      · rw [List.map_append, List.nodup_append]
        exact ⟨h, List.nodup_singleton _, by
          intro a ha hb
          rw [List.mem_map] at hb
          rcases hb with ⟨z, hz, hzid⟩
          rw [List.mem_singleton.mp hz] at hzid
          exact hnotin (hzid ▸ ha)⟩
      · simpa [List.append_assoc] using hn

/-- Claim C9: `cacheLeads` runs the clear and every insertion inside one
transaction and inserts with `add`, not `put`: whenever the input list
contains two entities with the same id, one of the `add` requests rejects,
the transaction aborts, the returned promise rejects with the constraint
error, and the cache collection is left exactly as it was before the call —
no partially-cleared or partially-populated cache is observable.  On
key-distinct input the call replaces the cache with exactly the input. -/
theorem cacheLeads_atomic (leads : List LeadData) (cache : List LeadData) :
    (¬ ((leads.map (fun l => l.id)).Nodup) →
      cacheLeads leads cache = (cache, some StoreError.constraint)) ∧
    (((leads.map (fun l => l.id)).Nodup) → cacheLeads leads cache = (leads, none)) := by
  constructor
  · intro h
    rw [cacheLeads, addAllLeads_err leads [] (by simp) (by simpa using h)]
  · intro h
    rw [cacheLeads, addAllLeads_ok leads [] (by simpa using h)]
    simp

/-- Claim C9 witness: a duplicate-id input rejects and leaves a concrete
cache untouched; a distinct-id input replaces it. -/
theorem cacheLeads_atomic_witness :
    cacheLeads [⟨some "1", "a"⟩, ⟨some "1", "b"⟩] [⟨some "9", "old"⟩] =
      ([⟨some "9", "old"⟩], some StoreError.constraint) ∧
    cacheLeads [⟨some "1", "a"⟩, ⟨some "2", "b"⟩] [⟨some "9", "old"⟩] =
      ([⟨some "1", "a"⟩, ⟨some "2", "b"⟩], none) :=
  ⟨(cacheLeads_atomic [⟨some "1", "a"⟩, ⟨some "1", "b"⟩] [⟨some "9", "old"⟩]).1 (by decide),
    (cacheLeads_atomic [⟨some "1", "a"⟩, ⟨some "2", "b"⟩] [⟨some "9", "old"⟩]).2 (by decide)⟩

/-- Claim C4 counterexample: the temporary id is NOT attached to the queued
operation's payload.  `queueInsert` computes `dataWithId = { ...data, id:
tempId }` but passes the original `data` to `addToQueue`, so for the concrete
call below the logged operation's payload still has `id = none`, not the
generated `temp_u1`; only the cached copy carries the temporary id. -/
theorem queueInsert_payload_lacks_tempId :
    (queueInsert ⟨"u1", 5, false⟩ initState "leads" ⟨none, "Acme"⟩).state.queue =
      [⟨"u1", OpType.insert, "leads", ⟨none, "Acme"⟩, 5⟩] ∧
    (queueInsert ⟨"u1", 5, false⟩ initState "leads" ⟨none, "Acme"⟩).tempId =
      some ("temp_" ++ "u1") ∧
    (none : Option String) ≠ some ("temp_" ++ "u1") := by
  refine ⟨rfl, rfl, by decide⟩

/-- Claim C4 (amended): for an Insert enqueued without a caller-supplied
identifier, `queueInsert` generates the fresh temporary identifier
`temp_<uuid>`, returns it to the caller, records the entity under that
temporary id in the cache (it attaches the id to the cached copy of the
payload — the queued operation's payload keeps the caller's data unchanged),
logs exactly one operation, and completes without contacting the remote
service. -/
theorem queueInsert_spec (env : EnqEnv) (s : AppState) (table : String) (data : LeadData)
    (hf : env.appendFail = false) (hfresh : ∀ op ∈ s.queue, op.id ≠ env.uuid)
    (_hid : data.id = none) :
    (queueInsert env s table data).tempId = some ("temp_" ++ env.uuid) ∧
    (queueInsert env s table data).state.queue =
      s.queue ++ [⟨env.uuid, OpType.insert, table, data, env.ts⟩] ∧
    { data with id := some ("temp_" ++ env.uuid) } ∈
      (queueInsert env s table data).state.cache ∧
    (queueInsert env s table data).calls = [] ∧
    (queueInsert env s table data).err = none ∧
    (queueInsert env s table data).state.queueCount = s.queue.length + 1 := by
  have hany : s.queue.any (fun op => decide (op.id = env.uuid)) = false := by
    rw [List.any_eq_false]
    intro op hop
    simpa using hfresh op hop
  simp [queueInsert, addToQueue, hf, hany, updateQueueCount, getQueueCount,
    mem_updateCachedLead]

/-- Claim C4 witness: the spec's example scenario — insert `Acme` offline with
no id; `temp_u1` is returned, the entity is cached under it, the queue depth
becomes 1, and no remote call happens. -/
theorem queueInsert_spec_witness :
    (queueInsert ⟨"u1", 5, false⟩ initState "leads" ⟨none, "Acme"⟩).tempId =
      some ("temp_" ++ "u1") ∧
    (queueInsert ⟨"u1", 5, false⟩ initState "leads" ⟨none, "Acme"⟩).state.queue =
      [] ++ [⟨"u1", OpType.insert, "leads", ⟨none, "Acme"⟩, 5⟩] ∧
    ({ id := some ("temp_" ++ "u1"), fields := "Acme" } : LeadData) ∈
      (queueInsert ⟨"u1", 5, false⟩ initState "leads" ⟨none, "Acme"⟩).state.cache ∧
    (queueInsert ⟨"u1", 5, false⟩ initState "leads" ⟨none, "Acme"⟩).calls = [] ∧
    (queueInsert ⟨"u1", 5, false⟩ initState "leads" ⟨none, "Acme"⟩).err = none ∧
    (queueInsert ⟨"u1", 5, false⟩ initState "leads" ⟨none, "Acme"⟩).state.queueCount =
      List.length ([] : List QueuedOperation) + 1 :=
  queueInsert_spec ⟨"u1", 5, false⟩ initState "leads" ⟨none, "Acme"⟩ rfl
    (by intro op hop; simp [initState] at hop) rfl

/-- Claim C3: one drain pass dispatches the queued operations to the remote
service in strict `timestamp`-ascending order with no reordering or merging —
the dispatch trace is exactly one remote call per queued operation (the
dispatch list is a permutation of the log, so operations targeting the same
record are still replayed as separate calls), listed in strictly increasing
timestamp order.  Sequentiality — operation N+1 is dispatched only after
operation N's outcome is known — is the structure of the embedded loop
`syncLoop`, a left fold that consults the remote outcome of each dispatched
call before building the rest of the trace. -/
theorem drain_dispatch_order (remoteOk : Nat → Bool) (s : AppState)
    (hs : s.isSyncing = false)
    (htab : ∀ op ∈ s.queue, op.table = "leads")
    (hnd : (s.queue.map (fun op => op.timestamp)).Nodup) :
    (syncQueue remoteOk s).calls = (getQueuedOperations s.queue).map remoteCallOf ∧
    getQueuedOperations s.queue ~ s.queue ∧
    (getQueuedOperations s.queue).Pairwise (fun a b => a.timestamp < b.timestamp) := by
  refine ⟨?_, getQueuedOperations_perm _, getQueuedOperations_pairwise_lt _ hnd⟩
  have htab' : ∀ op ∈ getQueuedOperations s.queue, op.table = "leads" := fun op hop =>
    htab op ((getQueuedOperations_perm s.queue).mem_iff.mp hop)
  have h := syncLoop_calls remoteOk (getQueuedOperations s.queue) s.queue [] 0 0 htab'
  simpa [syncQueue, hs] using h

/-- Claim C3 witness: two operations stored out of timestamp order (and both
rejected by the remote stub, showing the trace does not depend on outcomes)
are dispatched oldest-first, one call each. -/
theorem drain_dispatch_order_witness :
    (syncQueue (fun _ => false)
        ⟨[⟨"a", OpType.insert, "leads", ⟨none, "X"⟩, 2⟩,
          ⟨"b", OpType.delete, "leads", ⟨some "7", ""⟩, 1⟩], [], 2, false⟩).calls =
      (getQueuedOperations
        [⟨"a", OpType.insert, "leads", ⟨none, "X"⟩, 2⟩,
          ⟨"b", OpType.delete, "leads", ⟨some "7", ""⟩, 1⟩]).map remoteCallOf ∧
    getQueuedOperations
        [⟨"a", OpType.insert, "leads", ⟨none, "X"⟩, 2⟩,
          ⟨"b", OpType.delete, "leads", ⟨some "7", ""⟩, 1⟩] ~
      [⟨"a", OpType.insert, "leads", ⟨none, "X"⟩, 2⟩,
        ⟨"b", OpType.delete, "leads", ⟨some "7", ""⟩, 1⟩] ∧
    (getQueuedOperations
        [⟨"a", OpType.insert, "leads", ⟨none, "X"⟩, 2⟩,
          ⟨"b", OpType.delete, "leads", ⟨some "7", ""⟩, 1⟩]).Pairwise
      (fun a b => a.timestamp < b.timestamp) :=
  drain_dispatch_order (fun _ => false)
    ⟨[⟨"a", OpType.insert, "leads", ⟨none, "X"⟩, 2⟩,
      ⟨"b", OpType.delete, "leads", ⟨some "7", ""⟩, 1⟩], [], 2, false⟩
    rfl (by decide) (by decide)

/-- Claim C2: for every queue whose drain order is `[A, B, C]` with remote
outcomes success, failure, success, one drain pass dispatches all three in
order (B is dispatched exactly once — no retry within the pass — and the
failure on B does not stop C from being dispatched), removes A and C from the
log, leaves exactly B logged, ends with the internal counters at
`succeeded = 2, failed = 1`, and reports them through the `Sync Complete`
toast. -/
theorem drain_partial_failure (remoteOk : Nat → Bool) (s : AppState)
    (A B C : QueuedOperation)
    (hs : s.isSyncing = false)
    (hops : getQueuedOperations s.queue = [A, B, C])
    (htA : A.table = "leads") (htB : B.table = "leads") (htC : C.table = "leads")
    (hAB : A.id ≠ B.id) (hBC : B.id ≠ C.id) (hAC : A.id ≠ C.id)
    (h0 : remoteOk 0 = true) (h1 : remoteOk 1 = false) (h2 : remoteOk 2 = true) :
    (syncQueue remoteOk s).state.queue = [B] ∧
    (syncQueue remoteOk s).calls = [remoteCallOf A, remoteCallOf B, remoteCallOf C] ∧
    (syncQueue remoteOk s).result = some (2, 1) ∧
    (syncQueue remoteOk s).toasts = [Toast.syncComplete 2 1] := by
  have hperm : s.queue ~ [A, B, C] := by
    have h := getQueuedOperations_perm s.queue
    rw [hops] at h
    exact h.symm
  have hBA : B.id ≠ A.id := Ne.symm hAB
  have hCA : C.id ≠ A.id := Ne.symm hAC
  have hloop : syncLoop remoteOk [A, B, C] s.queue [] 0 0 =
      ⟨(s.queue.filter (fun x => !decide (x.id = A.id))).filter
          (fun x => !decide (x.id = C.id)),
        [remoteCallOf A, remoteCallOf B, remoteCallOf C], 2, 1⟩ := by
    simp [syncLoop, processOperation, htA, htB, htC, h0, h1, h2, removeFromQueue]
  have hq : (s.queue.filter (fun x => !decide (x.id = A.id))).filter
      (fun x => !decide (x.id = C.id)) = [B] := by
    have hp := (hperm.filter (fun x => !decide (x.id = A.id))).filter
      (fun x => !decide (x.id = C.id))
    have hconc : (([A, B, C].filter (fun x => !decide (x.id = A.id))).filter
        (fun x => !decide (x.id = C.id))) = [B] := by
      simp [List.filter_cons, hBA, hCA, hBC]
    rw [hconc] at hp
    exact List.perm_singleton.mp hp
  refine ⟨?_, ?_, ?_, ?_⟩ <;>
    simp [syncQueue, hs, hops, hloop, hq, updateQueueCount]

/-- Claim C2 witness: a concrete three-operation queue against a remote stub
that rejects exactly the second dispatched call. -/
theorem drain_partial_failure_witness :
    (syncQueue (fun i => !decide (i = 1))
        ⟨[⟨"a", OpType.insert, "leads", ⟨none, "X"⟩, 1⟩,
          ⟨"b", OpType.update, "leads", ⟨some "7", "Y"⟩, 2⟩,
          ⟨"c", OpType.delete, "leads", ⟨some "8", ""⟩, 3⟩], [], 3, false⟩).state.queue =
      [⟨"b", OpType.update, "leads", ⟨some "7", "Y"⟩, 2⟩] ∧
    (syncQueue (fun i => !decide (i = 1))
        ⟨[⟨"a", OpType.insert, "leads", ⟨none, "X"⟩, 1⟩,
          ⟨"b", OpType.update, "leads", ⟨some "7", "Y"⟩, 2⟩,
          ⟨"c", OpType.delete, "leads", ⟨some "8", ""⟩, 3⟩], [], 3, false⟩).calls =
      [remoteCallOf ⟨"a", OpType.insert, "leads", ⟨none, "X"⟩, 1⟩,
        remoteCallOf ⟨"b", OpType.update, "leads", ⟨some "7", "Y"⟩, 2⟩,
        remoteCallOf ⟨"c", OpType.delete, "leads", ⟨some "8", ""⟩, 3⟩] ∧
    (syncQueue (fun i => !decide (i = 1))
        ⟨[⟨"a", OpType.insert, "leads", ⟨none, "X"⟩, 1⟩,
          ⟨"b", OpType.update, "leads", ⟨some "7", "Y"⟩, 2⟩,
          ⟨"c", OpType.delete, "leads", ⟨some "8", ""⟩, 3⟩], [], 3, false⟩).result =
      some (2, 1) ∧
    (syncQueue (fun i => !decide (i = 1))
        ⟨[⟨"a", OpType.insert, "leads", ⟨none, "X"⟩, 1⟩,
          ⟨"b", OpType.update, "leads", ⟨some "7", "Y"⟩, 2⟩,
          ⟨"c", OpType.delete, "leads", ⟨some "8", ""⟩, 3⟩], [], 3, false⟩).toasts =
      [Toast.syncComplete 2 1] :=
  drain_partial_failure (fun i => !decide (i = 1))
    ⟨[⟨"a", OpType.insert, "leads", ⟨none, "X"⟩, 1⟩,
      ⟨"b", OpType.update, "leads", ⟨some "7", "Y"⟩, 2⟩,
      ⟨"c", OpType.delete, "leads", ⟨some "8", ""⟩, 3⟩], [], 3, false⟩
    ⟨"a", OpType.insert, "leads", ⟨none, "X"⟩, 1⟩
    ⟨"b", OpType.update, "leads", ⟨some "7", "Y"⟩, 2⟩
    ⟨"c", OpType.delete, "leads", ⟨some "8", ""⟩, 3⟩
    rfl (getQueuedOperations_eq_self _ (by decide)) rfl rfl rfl
    (by decide) (by decide) (by decide) rfl rfl rfl

/-- Claim C1: starting from the initial state, any sequence of enqueue calls
(with fresh uuids and strictly increasing timestamps, as `crypto.randomUUID`
and the spec's monotonic `Date.now` provide, targeting the supported `leads`
table) followed by one full drain against a remote service that succeeds on
every call ends with queue depth 0 — both the store and the exposed count —
and the remote service receives exactly one call per queued operation, in
enqueue order. -/
theorem enqueue_then_drain (cmds : List (EnqEnv × EnqCmd)) (remoteOk : Nat → Bool)
    (hf : ∀ p ∈ cmds, p.1.appendFail = false)
    (htab : ∀ p ∈ cmds, cmdTable p.2 = "leads")
    (hnd : (cmds.map (fun p => p.1.uuid)).Nodup)
    (hts : (cmds.map (fun p => p.1.ts)).Pairwise (fun a b => a < b))
    (hok : ∀ i, remoteOk i = true) :
    (syncQueue remoteOk (runEnqs cmds initState)).state.queue = [] ∧
    (syncQueue remoteOk (runEnqs cmds initState)).state.queueCount = 0 ∧
    (syncQueue remoteOk (runEnqs cmds initState)).calls =
      cmds.map (fun p => remoteCallOf (opOf p)) ∧
    (syncQueue remoteOk (runEnqs cmds initState)).result = some (cmds.length, 0) := by
  obtain ⟨hq, hsync⟩ := runEnqs_spec cmds initState hf (by simpa [initState] using hnd)
  rw [show initState.queue = [] from rfl, List.nil_append] at hq
  rw [show initState.isSyncing = false from rfl] at hsync
  have hqts : (runEnqs cmds initState).queue.Pairwise
      (fun a b => a.timestamp < b.timestamp) := by
    rw [hq, List.pairwise_map]
    exact (List.pairwise_map.mp hts).imp
      (fun h => by rw [opOf_timestamp, opOf_timestamp]; exact h)
  have hgq : getQueuedOperations (runEnqs cmds initState).queue =
      (runEnqs cmds initState).queue := getQueuedOperations_eq_self _ hqts
  have htab' : ∀ op ∈ (runEnqs cmds initState).queue, op.table = "leads" := by
    rw [hq]
    intro op hop
    rcases List.mem_map.mp hop with ⟨p, hp, rfl⟩
    rw [opOf_table]
    exact htab p hp
  have hloop := syncLoop_allOk remoteOk hok (runEnqs cmds initState).queue
    (runEnqs cmds initState).queue [] 0 0 htab'
  have hfilter : (runEnqs cmds initState).queue.filter
      (fun x => (runEnqs cmds initState).queue.all (fun o => !decide (x.id = o.id))) = [] := by
    rw [List.filter_eq_nil_iff]
    intro a ha hall
    have h := List.all_eq_true.mp hall a ha
    simp at h
  have hcalls : (runEnqs cmds initState).queue.map remoteCallOf =
      cmds.map (fun p => remoteCallOf (opOf p)) := by
    rw [hq, List.map_map]
    rfl
  have hlen : (runEnqs cmds initState).queue.length = cmds.length := by
    rw [hq, List.length_map]
  refine ⟨?_, ?_, ?_, ?_⟩ <;>
    simp [syncQueue, hsync, hgq, hloop, hfilter, hcalls, hlen, updateQueueCount,
      getQueueCount]

/-- Claim C1 witness: insert, update, delete enqueued in order, then a fully
successful drain. -/
theorem enqueue_then_drain_witness :
    (syncQueue (fun _ => true) (runEnqs threeEnqueues initState)).state.queue = [] ∧
    (syncQueue (fun _ => true) (runEnqs threeEnqueues initState)).state.queueCount = 0 ∧
    (syncQueue (fun _ => true) (runEnqs threeEnqueues initState)).calls =
      threeEnqueues.map (fun p => remoteCallOf (opOf p)) ∧
    (syncQueue (fun _ => true) (runEnqs threeEnqueues initState)).result =
      some (threeEnqueues.length, 0) :=
  enqueue_then_drain threeEnqueues (fun _ => true) (by decide) (by decide) (by decide)
    (by decide) (fun _ => rfl)

end OfflineQueue
